import Mathlib

/-!
Verification of the YouTube markdown-link refresher (src/script.py, src/utils.py).

The Python source is shallowly embedded: pure helpers become Lean functions on
`Nat`/`Int`/`String`/`List Char`; network calls, the fuzzy-matching library and
the ISO-duration library are abstracted as explicit parameters (oracle
functions or response values) of the embedded functions; Python exceptions
become `Except`/error constructors.  Python `float` arithmetic that feeds an
observable result (`int(len(keywords) * 0.7)`, `f-string` formatting of
`minutes / 60`) is modelled exactly, with IEEE-754 double rounding
(round-to-nearest, ties-to-even) carried out in integer arithmetic.
-/

set_option autoImplicit false

deriving instance DecidableEq for Except

/-! ### Generic list helpers and lemmas -/

/-- Splits a character list at every occurrence of the separator, like
Python `str.split(sep)` for a single-character separator. -/
def splitOnChar (sep : Char) : List Char → List (List Char)
  | [] => [[]]
  | c :: rest =>
    match splitOnChar sep rest with
    | [] => [[]]
    | g :: gs => if c == sep then [] :: g :: gs else (c :: g) :: gs

theorem splitOnChar_no_sep (sep : Char) (l : List Char)
    (h : ∀ c ∈ l, (c == sep) = false) : splitOnChar sep l = [l] := by
  induction l with
  | nil => rfl
  | cons c rest ih =>
    have hrest : splitOnChar sep rest = [rest] :=
      ih (fun x hx => h x (List.mem_cons_of_mem c hx))
    have hc : (c == sep) = false := h c (List.mem_cons_self c rest)
    simp [splitOnChar, hrest, hc]

theorem takeWhile_all {α : Type} (p : α → Bool) (l : List α)
    (h : ∀ x ∈ l, p x = true) : l.takeWhile p = l :=
  List.takeWhile_eq_self_iff.mpr h

theorem dropWhile_none {α : Type} (p : α → Bool) (l : List α)
    (h : ∀ x ∈ l, p x = false) : l.dropWhile p = l := by
  cases l with
  | nil => rfl
  | cons a rest => simp [List.dropWhile_cons, h a (List.mem_cons_self a rest)]

theorem takeWhile_append_stop {α : Type} (p : α → Bool) (a : List α) (b : α)
    (t : List α) (ha : ∀ x ∈ a, p x = true) (hb : p b = false) :
    (a ++ b :: t).takeWhile p = a := by
  induction a with
  | nil => simp [List.takeWhile_cons, hb]
  | cons x xs ih =>
    have hx : p x = true := ha x (List.mem_cons_self x xs)
    simp only [List.cons_append, List.takeWhile_cons, hx, if_true]
    simp [ih (fun y hy => ha y (List.mem_cons_of_mem x hy))]

theorem dropWhile_append_stop {α : Type} (p : α → Bool) (a : List α) (b : α)
    (t : List α) (ha : ∀ x ∈ a, p x = true) (hb : p b = false) :
    (a ++ b :: t).dropWhile p = b :: t := by
  induction a with
  | nil => simp [List.dropWhile_cons, hb]
  | cons x xs ih =>
    have hx : p x = true := ha x (List.mem_cons_self x xs)
    simp only [List.cons_append, List.dropWhile_cons, hx, if_true]
    exact ih (fun y hy => ha y (List.mem_cons_of_mem x hy))

/-- Boolean substring test on character lists, modelling Python `x in s`. -/
def isSubL (n : List Char) : List Char → Bool
  | [] => n.isEmpty
  | c :: rest => n.isPrefixOf (c :: rest) || isSubL n rest

/-! ### Exact IEEE-754 helpers (integer arithmetic only)

Python's `int(x)` truncation and `f"{x:.2f}"` formatting of a float are
observable in the source; the two places where a float is produced are
`len(keywords) * 0.7` and `minutes / 60`.  Both are modelled exactly:
a positive real `a / b` is rounded to the nearest double
(round-half-even on a 53-bit significand), entirely in `Nat` arithmetic. -/

/-- Round `a / b` to the nearest integer, ties to even (`b > 0`). -/
def rneDiv (a b : Nat) : Nat :=
  let q := a / b
  let r := a % b
  if b < 2 * r then q + 1
  else if 2 * r < b then q
  else if q % 2 = 0 then q else q + 1

/-- Fuel-driven base-2 logarithm, structurally recursive so that the kernel
can evaluate it (`Nat.log2` itself is defined by well-founded recursion). -/
def log2fuel : Nat → Nat → Nat
  | 0, _ => 0
  | f + 1, n => if n ≤ 1 then 0 else log2fuel f (n / 2) + 1

/-- Floor of the base-2 logarithm (0 for inputs below 2). -/
def natLog2 (n : Nat) : Nat := log2fuel n n

/-- The IEEE-754 double nearest to 0.7 is 6305039478318694 / 2^53
(0.7 × 2^53 = 6305039478318694.4, rounded to nearest). -/
def double07Num : Nat := 6305039478318694

/-- Python `int(n * 0.7)`: multiply `n` by the double 0.7, round the exact
product to the nearest double (ties to even), then truncate toward zero.
Models the `threshold` computation of `is_relevant` (src/utils.py:275). -/
def pyTrunc07 (n : Nat) : Nat :=
  let num := n * double07Num
  let b := natLog2 num
  if b ≤ 52 then num / 2 ^ 53
  else rneDiv num (2 ^ (b - 52)) * 2 ^ (b - 52) / 2 ^ 53

/-- Python `f"{m / 60:.2f}"` as an integer count of hundredths: `m / 60` is
rounded to the nearest double, and that double is rounded to two decimal
places (correct rounding, ties to even — ties never actually occur). -/
def hundredthsOfSixtieth (m : Nat) : Nat :=
  let e := natLog2 (m / 60)
  if e ≤ 52 then rneDiv (rneDiv (m * 2 ^ (52 - e)) 60 * 100) (2 ^ (52 - e))
  else rneDiv m (60 * 2 ^ (e - 52)) * 2 ^ (e - 52) * 100

/-! ### Keyword extraction and the relevance filter (src/utils.py:257-276) -/

/-- Python `str.lower()` (ASCII case folding, as in the titles handled here). -/
def pyLower (s : String) : String := String.mk (s.data.map Char.toLower)

/-- A character matched by the `extract_keywords` token pattern
`[a-zA-Z0-9#+]`. -/
def isWordChar (c : Char) : Bool :=
  (('a' ≤ c && c ≤ 'z') || ('A' ≤ c && c ≤ 'Z') || ('0' ≤ c && c ≤ '9')
    || c == '#' || c == '+')

/-- Fuel-driven scanner behind `findWordRuns` (structural recursion, so the
kernel can evaluate it; the fuel never runs out when it starts at the input
length). -/
def findWordRunsF : Nat → List Char → List (List Char)
  | 0, _ => []
  | _, [] => []
  | f + 1, c :: rest =>
    if isWordChar c then
      (c :: rest.takeWhile isWordChar) :: findWordRunsF f (rest.dropWhile isWordChar)
    else
      findWordRunsF f rest

/-- `re.findall(r"[a-zA-Z0-9#+]+", ...)`: the maximal runs of word
characters, in order. -/
def findWordRuns (l : List Char) : List (List Char) := findWordRunsF l.length l

/-- The stop-word set of `extract_keywords` (src/utils.py:259). -/
def stop_words : List String :=
  ["for", "in", "is", "what", "the", "a", "an", "to", "of", "and", "on"]

/-- `extract_keywords` (src/utils.py:257-261): lower-case the title, take the
alphanumeric-plus-`#+` runs, drop stop words. -/
def extract_keywords (title : String) : List String :=
  ((findWordRuns (pyLower title).data).map String.mk).filter
    (fun w => !stop_words.contains w)

/-- The emoji / short-form markers excluded by `is_relevant`
(src/utils.py:267). -/
def excludedMarkers : List String := ["😂", "🤣", "#shorts", "#meme"]

/-- The count of keywords whose fuzzy score against the lowered title is at
least 70 (src/utils.py:271-273).  `fuzzScore` abstracts
`rapidfuzz.fuzz.partial_ratio` (an external library) as an oracle. -/
def matched_keywords (fuzzScore : String → String → Nat) (keywords : List String)
    (titleLower : String) : Nat :=
  (keywords.filter (fun k => 70 ≤ fuzzScore k titleLower)).length

/-- `is_relevant` (src/utils.py:264-276): reject titles containing an excluded
marker, otherwise keep the candidate iff the matched-keyword count reaches
`max(1, int(len(keywords) * 0.7))`. -/
def is_relevant (fuzzScore : String → String → Nat) (title : String)
    (keywords : List String) : Bool :=
  let tl := pyLower title
  if excludedMarkers.any (fun x => isSubL x.data tl.data) then false
  else max 1 (pyTrunc07 keywords.length) ≤ matched_keywords fuzzScore keywords tl

/-! ### Response items, best-of selection and the search pipeline
(src/utils.py:279-367)

`YtItem` models one parsed JSON item of any of the three upstream payloads
(search, videos, playlists); fields absent from a payload are `none`, exactly
like a missing dictionary key.  A search request uses `part=snippet`, so its
items carry no `contentDetails`/`statistics`. -/

structure YtItem where
  videoId : Option String
  playlistId : Option String
  title : String
  publishedAt : String
  duration : Option String
  viewCount : Option Nat
  likeCount : Option Nat
deriving DecidableEq

/-- The popularity score of `get_best_video` (src/utils.py:280-284):
`int(stats.get("viewCount", 0)) + int(stats.get("likeCount", 0))`, a missing
count contributing 0. -/
def ytScore (v : YtItem) : Nat := v.viewCount.getD 0 + v.likeCount.getD 0

/-- One step of Python `max(results, key=score)`: the running maximum is
replaced only on a strictly larger key, so the first maximum wins. -/
def bestStep (best x : YtItem) : YtItem := if ytScore best < ytScore x then x else best

/-- `get_best_video` (src/utils.py:279-287): `max(results, key=score,
default=None)`. -/
def get_best_video (results : List YtItem) : Option YtItem :=
  match results with
  | [] => none
  | a :: rest => some (rest.foldl bestStep a)

/-- The relevance-filter comprehension of `fetch_youtube_data`
(src/utils.py:328-334). -/
def relevantItems (fuzzScore : String → String → Nat) (title : String)
    (items : List YtItem) : List YtItem :=
  items.filter (fun i => is_relevant fuzzScore i.title (extract_keywords title))

/-- The `video_ids` comprehension (src/utils.py:342-344): ids of relevant
items that carry a `videoId`. -/
def vidIds (items : List YtItem) : List String := items.filterMap (fun i => i.videoId)

/-- The duration-filter comprehension (src/utils.py:348-356); `lenOk`
abstracts `is_long_enough` (src/utils.py:290-292), whose ISO-8601 parsing is
done by the external `isodate` library. -/
def longItems (lenOk : String → Bool) (vitems : List YtItem) : List YtItem :=
  vitems.filter (fun i => lenOk (i.duration.getD ""))

/-- Outcome of `fetch_youtube_data`: the Python function returns a failure
message string, a result dictionary, or `None` (for an unknown `type`);
`crashed` marks an uncaught exception (`KeyError`/`IndexError`). -/
inductive FetchOut where
  | noData
  | failMsg (msg : String)
  | found (item : YtItem)
  | crashed
deriving DecidableEq

/-- `fetch_youtube_data` (src/utils.py:307-367).  External effects are
explicit: `searchItems` is the parsed search response for the title,
`videoInfo` maps a batch of video ids to the parsed `get_video_info`
response (src/utils.py:295-304), and the second component of the result
lists the id batches passed to `get_video_info` (the duration/statistics
metadata lookups that were issued). -/
def fetch_youtube_data (fuzzScore : String → String → Nat) (lenOk : String → Bool)
    (searchItems : List YtItem) (videoInfo : List String → List YtItem)
    (title : String) (type : String) : FetchOut × List (List String) :=
  if searchItems.isEmpty then (.failMsg ("No search result for '" ++ title ++ "'"), [])
  else
    let relevant := relevantItems fuzzScore title searchItems
    if relevant.isEmpty then (.failMsg ("No relevant search for '" ++ title ++ "'"), [])
    else if type == "videos" then
      let ids := vidIds relevant
      let vitems := videoInfo ids
      if vitems.any (fun i => i.duration.isNone) then (.crashed, [ids])
      else if (longItems lenOk vitems).isEmpty then
        (.failMsg "No relevant video content that is >= 5 mins", [ids])
      else
        match get_best_video (longItems lenOk vitems) with
        | some v => (.found v, [ids])
        | none => (.noData, [ids])
    else if type == "playlists" then
      match relevant.filter (fun i => i.playlistId.isSome) with
      | [] => (.crashed, [])
      | p :: _ => (.found p, [])
    else (.noData, [])

/-! ### The recency check (src/utils.py:153-171) -/

/-- The `error` object of an upstream response body. -/
structure YtApiError where
  code : Nat
  message : String
deriving DecidableEq

/-- A parsed response body of the `videos`/`playlists` id lookup. -/
structure YtResponse where
  errObj : Option YtApiError
  items : List YtItem
deriving DecidableEq

/-- How a single recency check can fail. -/
inductive CheckErr where
  /-- `httpx.ConnectTimeout` is caught and printed, after which
  `response.json()` raises `UnboundLocalError` (`response` was never
  assigned). -/
  | unboundResponse
  /-- A 403 error body triggers `exit(1)`. -/
  | quotaExit (msg : String)
  /-- `data["items"][0]` on an absent or empty `items` list. -/
  | indexOut
  /-- `int(...)` on a non-numeric `publishedAt` prefix. -/
  | valueParse
deriving DecidableEq

/-- Decimal value of a digit run. -/
def digitsVal (l : List Char) : Nat :=
  l.foldl (fun a c => a * 10 + (c.toNat - '0'.toNat)) 0

/-- `int(data["items"][0]["snippet"]["publishedAt"][:4])`: the first four
characters parsed as a number, `none` when `int` would raise. -/
def yearOf (s : String) : Option Int :=
  let t := s.data.take 4
  if t.isEmpty || !t.all Char.isDigit then none else some (digitsVal t)

/-- `is_yt_url_outdated` (src/utils.py:153-171).  `net` is the network
outcome: `none` models `httpx.ConnectTimeout`, `some data` a parsed JSON
response.  The verdict compares calendar years:
`current_year - 3 >= published_year`. -/
def is_yt_url_outdated (net : Option YtResponse) (currentYear : Int) :
    Except CheckErr Bool :=
  match net with
  | none => .error .unboundResponse
  | some data =>
    let proceed : Except CheckErr Bool :=
      match data.items with
      | [] => .error .indexOut
      | it :: _ =>
        match yearOf it.publishedAt with
        | some p => .ok (decide (currentYear - 3 ≥ p))
        | none => .error .valueParse
    match data.errObj with
    | some e => if e.code = 403 then .error (.quotaExit e.message) else proceed
    | none => proceed

/-! ### Link matching and identifier extraction
(src/utils.py:67-96 and 174-187)

`urllib.parse.urlparse` / `parse_qs` are standard-library collaborators;
the slices of their behaviour exercised by the source (netloc/path/query of
an `http(s)://` URL, `&`-separated `key=value` pairs with blank values
dropped) are modelled directly on character lists. -/

/-- The remainder of the URL after the first `//` (scheme separator). -/
def afterDoubleSlash : List Char → Option (List Char)
  | a :: b :: rest => if a == '/' && b == '/' then some rest else afterDoubleSlash (b :: rest)
  | _ => none

/-- A character that continues the netloc (anything before `/`, `?`, `#`). -/
def isNetlocChar (c : Char) : Bool := !(c == '/' || c == '?' || c == '#')

/-- `urlparse(url).netloc` for the URL shapes in scope. -/
def urlNetloc (u : List Char) : List Char :=
  ((afterDoubleSlash u).getD []).takeWhile isNetlocChar

/-- What follows the netloc (starts with `/`, `?` or `#`, or empty). -/
def urlAfterNetloc (u : List Char) : List Char :=
  ((afterDoubleSlash u).getD []).dropWhile isNetlocChar

/-- `urlparse(url).path` for the URL shapes in scope. -/
def urlPath (u : List Char) : List Char :=
  (urlAfterNetloc u).takeWhile (fun c => !(c == '?' || c == '#'))

/-- `urlparse(url).query` for the URL shapes in scope. -/
def urlQuery (u : List Char) : List Char :=
  match (urlAfterNetloc u).dropWhile (fun c => !(c == '?')) with
  | _ :: t => t.takeWhile (fun c => !(c == '#'))
  | [] => []

/-- One `key=value` field of `parse_qs`: fields without `=` and fields with a
blank value are dropped (`keep_blank_values` defaults to false). -/
def parseQsPair (f : List Char) : Option (List Char × List Char) :=
  if f.contains '=' then
    let v := ((f.dropWhile (fun c => !(c == '='))).tail)
    if v.isEmpty then none else some (f.takeWhile (fun c => !(c == '=')), v)
  else none

/-- `parse_qs(query)` as an ordered association list. -/
def parse_qs (q : List Char) : List (List Char × List Char) :=
  (splitOnChar '&' q).filterMap parseQsPair

/-- `parse_qs(query).get(key)[0]`: the first value recorded for the key. -/
def qsFirst (q : List Char) (key : List Char) : Option (List Char) :=
  ((parse_qs q).filter (fun p => p.1 == key)).head?.map (fun p => p.2)

/-- Python `str.strip("/")`. -/
def stripSlashes (l : List Char) : List Char :=
  (((l.dropWhile (fun c => c == '/')).reverse).dropWhile (fun c => c == '/')).reverse

/-- How identifier extraction can fail: `query_params.get(...)` returns
`None` and `None[0]` raises `TypeError`. -/
inductive ExtractErr where
  | typeErr
deriving DecidableEq

/-- The identifier extraction of `check_and_update_yt` (src/utils.py:177-187):
the path for a `youtu.be` netloc, else the first `v` (videos) or `list`
(playlists) query parameter; a missing parameter raises. -/
def extract_yt_id (url : String) (type : String) : Except ExtractErr String :=
  let u := url.data
  if isSubL "youtu.be".data (urlNetloc u) then
    .ok (String.mk (stripSlashes (urlPath u)))
  else
    match qsFirst (urlQuery u) (if type == "videos" then "v".data else "list".data) with
    | some v => .ok (String.mk v)
    | none => .error .typeErr

/-- The twelve concrete URL prefixes accepted by the `get_file_yt_info`
pattern `https?://(?:www\.)?(?:youtube\.com/watch\?v=|youtube\.com/playlist\?list=|youtu\.be/)`
(src/utils.py:78-80). -/
def ytPrefixes : List String :=
  [ "https://www.youtube.com/watch?v=", "https://youtube.com/watch?v=",
    "http://www.youtube.com/watch?v=", "http://youtube.com/watch?v=",
    "https://www.youtube.com/playlist?list=", "https://youtube.com/playlist?list=",
    "http://www.youtube.com/playlist?list=", "http://youtube.com/playlist?list=",
    "https://www.youtu.be/", "https://youtu.be/",
    "http://www.youtu.be/", "http://youtu.be/" ]

/-- Attempts the link pattern `\[([^\]]+)\]\((URL-prefix)[^)]+\)` at the start
of the character list, returning the two capture groups (name, url).  The
regex is deterministic here: both `[^\]]+` and `[^)]+` are runs up to the
next closing bracket, which must then be present. -/
def matchYtAt (l : List Char) : Option (List Char × List Char) :=
  match l with
  | '[' :: rest =>
    match rest.takeWhile (fun c => !(c == ']')), rest.dropWhile (fun c => !(c == ']')) with
    | nm :: nms, ']' :: '(' :: rest2 =>
      let url := rest2.takeWhile (fun c => !(c == ')'))
      match rest2.dropWhile (fun c => !(c == ')')) with
      | ')' :: _ =>
        if ytPrefixes.any (fun p => p.data.isPrefixOf url && decide (p.data.length < url.length))
        then some (nm :: nms, url) else none
      | _ => none
    | _, _ => none
  | _ => none

/-- `re.search` of the link pattern: the match at the leftmost start
position wins. -/
def searchYtLine : List Char → Option (List Char × List Char)
  | [] => none
  | c :: rest =>
    match matchYtAt (c :: rest) with
    | some r => some r
    | none => searchYtLine rest

/-- Python `str.strip()` (whitespace at both ends). -/
def trimWs (l : List Char) : List Char :=
  ((l.dropWhile Char.isWhitespace).reverse.dropWhile Char.isWhitespace).reverse

/-- One link record of `get_file_yt_info` (src/utils.py:86-94). -/
structure LinkRec where
  name : String
  type : String
  url : String
deriving DecidableEq

/-- The video/playlist classification (src/utils.py:89-92):
`"playlist?" in url` decides the type. -/
def classifyUrl (url : String) : String :=
  if isSubL "playlist?".data url.data then "playlists" else "videos"

/-- The record produced from one document line by `get_file_yt_info`
(src/utils.py:83-94), or `none` when the pattern does not match. -/
def lineRecord (line : String) : Option LinkRec :=
  (searchYtLine line.data).map (fun p =>
    { name := String.mk (trimWs p.1)
      type := classifyUrl (String.mk (trimWs p.2))
      url := String.mk (trimWs p.2) })

/-! ### The process-wide recency cache (src/utils.py:189-193, 236-254)

`outdated_md_info` processes documents sequentially; within one document all
`check_and_update_yt` tasks are started by one `asyncio.gather`.  Under the
cooperative scheduler every task performs its cache lookup before suspending
on its first network await, and cache writes happen only after that await —
so all lookups of a batch see the cache as it was when the batch started,
and every id of the batch is cached once the batch completes. -/

/-- The upstream recency calls issued for one document batch: one call per
link whose id is not cached at batch start (duplicates inside the batch each
call, because no write has landed when they look up). -/
def batchRecencyCalls (cache : List String) (ids : List String) : List String :=
  ids.filter (fun i => !cache.contains i)

/-- All upstream recency calls of one run: documents in order, the cache
accumulating every id that a batch has checked. -/
def runRecencyCalls (cache : List String) : List (List String) → List String
  | [] => []
  | d :: ds => batchRecencyCalls cache d ++ runRecencyCalls (cache ++ d) ds

/-! ### Filesystem effects of one run (src/script.py, src/utils.py:67-96,
99-111, 222-254)

Every `open(...)` of the program, in order, with its mode.  The log append
for a document happens only when that document produced at least one update
record; that data- and network-dependent condition is abstracted as the
`hasOutdated` oracle. -/

inductive FsMode where
  | read
  | write
  | append
deriving DecidableEq

structure FsOp where
  path : String
  mode : FsMode
deriving DecidableEq

/-- The log file name used by `outdated_md_info` (src/utils.py:233-234)
and `create_log_file` (src/utils.py:100-104). -/
def logName (isDryRun : Bool) (dateStr : String) : String :=
  (if isDryRun then "dry_run" else "update_log") ++ "_" ++ dateStr ++ ".log"

/-- File operations of `outdated_md_info` (src/utils.py:222-254): each
markdown file is opened for reading by `get_file_yt_info`
(src/utils.py:82), and the log is opened for appending when the file had
outdated links (src/utils.py:251-253). -/
def outdated_md_info_fsOps (isDryRun : Bool) (dateStr : String)
    (hasOutdated : String → Bool) (files : List String) : List FsOp :=
  files.flatMap (fun f =>
    ⟨f, .read⟩ :: (if hasOutdated f then [⟨logName isDryRun dateStr, .append⟩] else []))

/-- File operations of one `script.py` run: `main` calls
`outdated_md_info(markdown_files)` (default `is_dry_run=False`) and then
writes `dump.json` (src/script.py:46-54). -/
def script_fsOps (dateStr : String) (hasOutdated : String → Bool)
    (files : List String) : List FsOp :=
  outdated_md_info_fsOps false dateStr hasOutdated files ++ [⟨"dump.json", .write⟩]

/-! ### Duration formatting (src/utils.py:47-64) -/

/-- The prefix match `re.match(r"PT(\d+)M(\d+)S", duration)`: `re.match`
anchors at the start only, so trailing characters after the `S` are
accepted and ignored. -/
def matchPTMS (l : List Char) : Option (Nat × Nat) :=
  match l with
  | p :: t :: rest =>
    if p == 'P' && t == 'T' then
      match rest.takeWhile Char.isDigit, rest.dropWhile Char.isDigit with
      | d :: ds, m :: rest2 =>
        if m == 'M' then
          match rest2.takeWhile Char.isDigit, rest2.dropWhile Char.isDigit with
          | e :: es, s :: _ =>
            if s == 'S' then some (digitsVal (d :: ds), digitsVal (e :: es)) else none
          | _, _ => none
        else none
      | _, _ => none
    else none
  | _ => none

/-- Two-decimal rendering of `hundredths / 100`. -/
def twoDecimalsOfHundredths (c : Nat) : String :=
  toString (c / 100) ++ "." ++
    (if c % 100 < 10 then "0" ++ toString (c % 100) else toString (c % 100))

/-- `f"{minutes / 60:.2f} hours"` (src/utils.py:60-61). -/
def formatHours (minutes : Nat) : String :=
  twoDecimalsOfHundredths (hundredthsOfSixtieth minutes) ++ " hours"

/-- `convert_duration` (src/utils.py:47-64): on a `PT<m>M<s>S` prefix,
report `m+1` minutes when `s > 0` (`math.ceil(minutes + 1)` on an int is
`minutes + 1`) else `m`, rendered as hours with two decimals once the
minutes reach 60; otherwise the literal invalid-format message. -/
def convert_duration (s : String) : String :=
  match matchPTMS s.data with
  | none => "Invalid duration format"
  | some (m, sec) =>
    let minutes := if 0 < sec then m + 1 else m
    if 60 ≤ minutes then formatHours minutes
    else toString minutes ++ " minute(s)"

/-- Specification-side decomposition: the list starts with
`PT<digits>M<digits>S` and the two digit runs denote `m` and `s`. -/
def IsPTMSAt (l : List Char) (m s : Nat) : Prop :=
  ∃ d1 d2 rest, d1 ≠ [] ∧ d2 ≠ [] ∧ (∀ c ∈ d1, c.isDigit = true) ∧
    (∀ c ∈ d2, c.isDigit = true) ∧
    l = 'P' :: 'T' :: (d1 ++ 'M' :: (d2 ++ 'S' :: rest)) ∧
    m = digitsVal d1 ∧ s = digitsVal d2

/-- The list has a `PT<m>M<s>S` prefix. -/
def IsPTMS (l : List Char) : Prop := ∃ m s, IsPTMSAt l m s

/-! ### Concrete fixtures used by witnesses and counterexamples -/

/-- A fuzzy-score oracle agreeing with `partial_ratio` on clear-cut inputs:
100 for a keyword occurring verbatim in the title, 0 otherwise. -/
def fuzzSubstr : String → String → Nat :=
  fun k t => if isSubL k.data t.data then 100 else 0

/-- A search-response item (payload `part=snippet`: no duration, no
statistics). -/
def searchItemW : YtItem :=
  { videoId := some "abc", playlistId := none, title := "intro tutorial",
    publishedAt := "", duration := none, viewCount := none, likeCount := none }

/-- A search-response item whose title carries an excluded marker. -/
def shortsItemW : YtItem :=
  { videoId := some "zzz", playlistId := none, title := "#shorts fun",
    publishedAt := "", duration := none, viewCount := none, likeCount := none }

/-- A `get_video_info` item with view+like score 100. -/
def vidW1 : YtItem :=
  { videoId := none, playlistId := none, title := "A", publishedAt := "",
    duration := some "PT10M0S", viewCount := some 100, likeCount := none }

/-- A `get_video_info` item with view+like score 250. -/
def vidW2 : YtItem :=
  { videoId := none, playlistId := none, title := "B", publishedAt := "",
    duration := some "PT10M0S", viewCount := some 200, likeCount := some 50 }

/-- A metadata item published in 2019. -/
def item2019W : YtItem :=
  { videoId := none, playlistId := none, title := "t",
    publishedAt := "2019-05-01T00:00:00Z", duration := none,
    viewCount := none, likeCount := none }

/-- A well-formed response whose single item was published in 2019. -/
def resp2019W : YtResponse := { errObj := none, items := [item2019W] }

/-- A well-formed response with an empty `items` list (identifier unknown
upstream: deleted or private content). -/
def respEmptyW : YtResponse := { errObj := none, items := [] }

/-! ### Supporting lemmas -/

theorem count_filter_of_pos (p : String → Bool) (l : List String) (a : String)
    (h : p a = true) : (l.filter p).count a = l.count a := by
  induction l with
  | nil => rfl
  | cons x xs ih =>
    by_cases hx : x = a
    · subst hx
      simp [List.filter_cons, h, List.count_cons, ih]
    · cases hp : p x <;>
        simp [List.filter_cons, hp, List.count_cons, hx, ih]

theorem count_filter_zero (p : String → Bool) (l : List String) (a : String)
    (h : a ∉ l) : (l.filter p).count a = 0 :=
  List.count_eq_zero.mpr (fun hmem => h (List.mem_of_mem_filter hmem))

theorem runRecency_count_zero (ds : List (List String)) (cache : List String)
    (i : String) (h : i ∈ cache) : (runRecencyCalls cache ds).count i = 0 := by
  induction ds generalizing cache with
  | nil => rfl
  | cons d rest ih =>
    have h1 : (batchRecencyCalls cache d).count i = 0 :=
      List.count_eq_zero.mpr (by
        intro hmem
        have hf := List.of_mem_filter hmem
        simp only [Bool.not_eq_true', ← Bool.not_eq_true] at hf
        exact hf (List.elem_eq_true_of_mem h))
    simp [runRecencyCalls, List.count_append, h1,
      ih (cache ++ d) (List.mem_append_left d h)]

theorem runRecency_count_firstDoc (docs1 : List (List String))
    (docs2 : List (List String)) (d : List String) (i : String)
    (cache : List String) (hc : i ∉ cache) (h1 : ∀ e ∈ docs1, i ∉ e)
    (h2 : i ∈ d) :
    (runRecencyCalls cache (docs1 ++ d :: docs2)).count i = d.count i := by
  induction docs1 generalizing cache with
  | nil =>
    have hbatch : (batchRecencyCalls cache d).count i = d.count i := by
      apply count_filter_of_pos
      simp only [Bool.not_eq_true']
      cases hcon : cache.contains i
      · rfl
      · exact absurd (List.mem_of_elem_eq_true hcon) hc
    have hrest : (runRecencyCalls (cache ++ d) docs2).count i = 0 :=
      runRecency_count_zero docs2 (cache ++ d) i (List.mem_append_right cache h2)
    simp [runRecencyCalls, List.count_append, hbatch, hrest]
  | cons e es ih =>
    have he : i ∉ e := h1 e (List.mem_cons_self e es)
    have hbatch : (batchRecencyCalls cache e).count i = 0 :=
      count_filter_zero _ e i he
    have hc2 : i ∉ cache ++ e := by
      intro hmem
      rcases List.mem_append.mp hmem with hl | hr
      · exact hc hl
      · exact he hr
    simp [runRecencyCalls, List.count_append, hbatch,
      ih (cache ++ e) hc2 (fun x hx => h1 x (List.mem_cons_of_mem e hx))]

/-! ### Claims -/

/-- C1: for every identifier whose upstream metadata reports a publication
year `p` (and whose lookup completes without a network or quota failure),
the recency check classifies it as stale exactly when
`currentYear - p ≥ 3`, comparing calendar years only — the year is the
four-character prefix of the `publishedAt` timestamp, days are ignored. -/
theorem C1_yearGranularStale (resp : YtResponse) (cy p : Int) (it : YtItem)
    (rest : List YtItem) (he : resp.errObj = none) (hi : resp.items = it :: rest)
    (hp : yearOf it.publishedAt = some p) :
    is_yt_url_outdated (some resp) cy = .ok true ↔ 3 ≤ cy - p := by
  simp only [is_yt_url_outdated, he, hi, hp]
  constructor
  · intro h
    have := Except.ok.inj h
    have h3 : cy - 3 ≥ p := of_decide_eq_true this
    omega
  · intro h
    have h3 : cy - 3 ≥ p := by omega
    simp [decide_eq_true h3]

/-- C1 witness: a 2019 publication checked in 2024 is stale (5 ≥ 3). -/
theorem C1_witness : is_yt_url_outdated (some resp2019W) 2024 = .ok true :=
  (C1_yearGranularStale resp2019W 2024 2019 item2019W [] rfl rfl (by decide)).mpr
    (by norm_num)

set_option maxRecDepth 8000 in
/-- For keyword counts up to 89 the Python float threshold agrees with the
rational floor; the first disagreement is at 90 keywords, where the rounded
double 90 × 0.7 is 62.99999999999999 and `int` truncates it to 62. -/
theorem pyTrunc07_eq_floor_of_lt90 : ∀ n, n < 90 → pyTrunc07 n = 7 * n / 10 := by
  decide

/-- C2 counterexample: with two keywords of which exactly one matches (score
100 vs 0), the code keeps the candidate — its threshold is
`max(1, int(2 * 0.7)) = 1` — while the claim's threshold
`max(1, ceil(0.7 * 2)) = 2` would reject it, so "kept iff the count reaches
`max(1, ceil(0.7 × |K|))`" is false. -/
theorem C2_cex :
    is_relevant fuzzSubstr "Python xylophone" ["python", "tutorial"] = true ∧
    matched_keywords fuzzSubstr ["python", "tutorial"]
      (pyLower "Python xylophone") = 1 ∧
    ¬ (max 1 ((7 * 2 + 9) / 10) ≤ 1) := by
  decide

/-- C2 (amended): for a candidate title free of the excluded markers, the
candidate is kept iff the matched-keyword count reaches
`max(1, int(0.7 × |K|))`, where `int` truncates the IEEE-double product —
which equals `max(1, ⌊0.7 × |K|⌋)` for every keyword count below 90. -/
theorem C2_relevanceThreshold (fuzzScore : String → String → Nat)
    (title : String) (keywords : List String)
    (hm : excludedMarkers.any (fun x => isSubL x.data (pyLower title).data) = false) :
    (is_relevant fuzzScore title keywords = true ↔
      max 1 (pyTrunc07 keywords.length) ≤
        matched_keywords fuzzScore keywords (pyLower title)) ∧
    (keywords.length < 90 →
      pyTrunc07 keywords.length = 7 * keywords.length / 10) := by
  constructor
  · simp [is_relevant, hm]
  · exact pyTrunc07_eq_floor_of_lt90 keywords.length

/-- C2 witness: a single keyword occurring verbatim in a marker-free title
is kept (threshold `max(1, int(0.7)) = 1`). -/
theorem C2_witness :
    (is_relevant fuzzSubstr "Python" ["python"] = true ↔
      max 1 (pyTrunc07 (["python"] : List String).length) ≤
        matched_keywords fuzzSubstr ["python"] (pyLower "Python")) ∧
    ((["python"] : List String).length < 90 →
      pyTrunc07 (["python"] : List String).length =
        7 * (["python"] : List String).length / 10) :=
  C2_relevanceThreshold fuzzSubstr "Python" ["python"] (by decide)

/-- C4 counterexample: a document whose concurrent batch holds the same
identifier twice issues two upstream recency calls for it — the second
lookup runs before the first call's result is written to the cache — so
"at most once per distinct resource_id per process lifetime, including
links dispatched concurrently" is false. -/
theorem C4_cex :
    (runRecencyCalls [] [["a", "a"]]).count "a" = 2 ∧
    ¬ ((runRecencyCalls [] [["a", "a"]]).count "a" ≤ 1) := by
  decide

/-- C4 (amended): every upstream recency call for an identifier is issued by
the first document containing it — one call per occurrence in that
document's concurrent batch — and later documents are answered from the
cache without any upstream call. -/
theorem C4_firstDocumentOnly (docs1 docs2 : List (List String))
    (d : List String) (i : String) (h1 : ∀ e ∈ docs1, i ∉ e) (h2 : i ∈ d) :
    (runRecencyCalls [] (docs1 ++ d :: docs2)).count i = d.count i :=
  runRecency_count_firstDoc docs1 docs2 d i [] (by simp) h1 h2

/-- C4 witness: id "a" appears in the second and third documents; both calls
for it come from the second document (its batch holds "a" twice), none from
the third. -/
theorem C4_witness :
    (runRecencyCalls [] ([["b"]] ++ ["a", "a", "b"] :: [["a"]])).count "a" =
      (["a", "a", "b"] : List String).count "a" :=
  C4_firstDocumentOnly [["b"]] [["a"]] ["a", "a", "b"] "a" (by decide) (by decide)

/-- C5: when the search returned items but none passes the keyword-relevance
filter, `fetch_youtube_data` short-circuits with the no-relevant-search
failure message and the duration/statistics metadata lookup
(`get_video_info`) is never issued. -/
theorem C5_relevanceShortCircuit (fuzzScore : String → String → Nat)
    (lenOk : String → Bool) (searchItems : List YtItem)
    (videoInfo : List String → List YtItem) (title type : String)
    (h1 : searchItems ≠ [])
    (h2 : relevantItems fuzzScore title searchItems = []) :
    fetch_youtube_data fuzzScore lenOk searchItems videoInfo title type =
      (.failMsg ("No relevant search for '" ++ title ++ "'"), []) := by
  have h1' : searchItems.isEmpty = false := by
    cases searchItems with
    | nil => exact absurd rfl h1
    | cons a l => rfl
  simp [fetch_youtube_data, h1', h2]

/-- C5 witness: one search item whose title carries the `#shorts` marker is
filtered out, so the pipeline stops with the no-relevant-search message and
an empty list of metadata calls. -/
theorem C5_witness :
    fetch_youtube_data (fun _ _ => 0) (fun _ => true) [shortsItemW]
      (fun _ => [vidW1]) "Intro" "videos" =
      (.failMsg ("No relevant search for '" ++ "Intro" ++ "'"), []) :=
  C5_relevanceShortCircuit (fun _ _ => 0) (fun _ => true) [shortsItemW]
    (fun _ => [vidW1]) "Intro" "videos" (by decide) (by decide)

/-- C6 counterexample: a response with no entry for the identifier (empty
`items`) makes the recency check fail with the modelled `IndexError`
(`data["items"][0]`), not classify the identifier as fresh. -/
theorem C6_cex :
    is_yt_url_outdated (some respEmptyW) 2024 = .error .indexOut ∧
    is_yt_url_outdated (some respEmptyW) 2024 ≠ .ok false := by
  decide

/-- C6 (amended): an identifier absent from the upstream response (empty
`items` list, no error object) makes the recency check raise an uncaught
`IndexError` — the item is neither classified fresh nor stale and the
check does not return a verdict. -/
theorem C6_absentIdCrashes (resp : YtResponse) (cy : Int)
    (he : resp.errObj = none) (hi : resp.items = []) :
    is_yt_url_outdated (some resp) cy = .error .indexOut := by
  simp [is_yt_url_outdated, he, hi]

/-- C6 witness: the empty-items response at year 2024. -/
theorem C6_witness : is_yt_url_outdated (some respEmptyW) 2025 = .error .indexOut :=
  C6_absentIdCrashes respEmptyW 2025 rfl rfl

/-- C7: a connect-timeout is caught and logged, but the function then reads
the never-assigned `response` variable, so the check raises
`UnboundLocalError` (modelled as the `unboundResponse` error) instead of
returning the documented "not stale" verdict — the exception propagates
through `asyncio.gather` and aborts the run. -/
theorem C7_timeoutCrashes (cy : Int) :
    is_yt_url_outdated none cy = .error .unboundResponse := rfl

/-- Python `max(key=...)` keeps the first maximum: the fold result `v` splits
the list into strictly-smaller predecessors and no-larger successors. -/
theorem foldBest_firstMax (rest : List YtItem) : ∀ a : YtItem,
    ∃ l1 v l2, a :: rest = l1 ++ v :: l2 ∧ rest.foldl bestStep a = v ∧
      (∀ u ∈ l1, ytScore u < ytScore v) ∧ (∀ u ∈ l2, ytScore u ≤ ytScore v) := by
  induction rest with
  | nil =>
    intro a
    exact ⟨[], a, [], rfl, rfl, by simp, by simp⟩
  | cons b rs ih =>
    intro a
    by_cases hgt : ytScore a < ytScore b
    · obtain ⟨l1, v, l2, hdec, hfold, hlt, hle⟩ := ih b
      refine ⟨a :: l1, v, l2, by simp [hdec], ?_, ?_, hle⟩
      · simp [List.foldl_cons, bestStep, hgt, hfold]
      · intro u hu
        have hbv : ytScore b ≤ ytScore v := by
          cases l1 with
          | nil =>
            have hcons : b :: rs = v :: l2 := by simpa using hdec
            obtain ⟨hbv', h2⟩ := List.cons.inj hcons
            rw [hbv']
          | cons c l1' =>
            have hcons : b :: rs = c :: (l1' ++ v :: l2) := by simpa using hdec
            obtain ⟨hbc, h2⟩ := List.cons.inj hcons
            rw [hbc]
            exact Nat.le_of_lt (hlt c (List.mem_cons_self c l1'))
        rcases List.mem_cons.mp hu with rfl | hu'
        · exact Nat.lt_of_lt_of_le hgt hbv
        · exact hlt u hu'
    · obtain ⟨l1, v, l2, hdec, hfold, hlt, hle⟩ := ih a
      cases l1 with
      | nil =>
        have hcons : a :: rs = v :: l2 := by simpa using hdec
        obtain ⟨hva, hl2⟩ := List.cons.inj hcons
        subst hva
        subst hl2
        refine ⟨[], a, b :: rs, rfl, ?_, by simp, ?_⟩
        · simp [List.foldl_cons, bestStep, hgt, hfold]
        · intro u hu
          rcases List.mem_cons.mp hu with rfl | hu'
          · exact Nat.le_of_not_lt hgt
          · exact hle u hu'
      | cons c l1' =>
        have hcons : a :: rs = c :: (l1' ++ v :: l2) := by simpa using hdec
        obtain ⟨hac, hrs⟩ := List.cons.inj hcons
        subst hac
        refine ⟨a :: b :: l1', v, l2, by simp [hrs], ?_, ?_, hle⟩
        · simp [List.foldl_cons, bestStep, hgt, hfold]
        · intro u hu
          have hav : ytScore a < ytScore v := hlt a (List.mem_cons_self a l1')
          rcases List.mem_cons.mp hu with rfl | hu'
          · exact hav
          · rcases List.mem_cons.mp hu' with rfl | hu''
            · exact Nat.lt_of_le_of_lt (Nat.le_of_not_lt hgt) hav
            · exact hlt u (List.mem_cons_of_mem a hu'')

/-- C3: the selection step returns the survivor with the maximal
`view_count + like_count` score (a missing count contributing 0), the first
one in encounter order on ties.  Part one characterizes `get_best_video` on
any non-empty survivor list; part two shows `fetch_youtube_data` returns
exactly that candidate for videos; part three shows the playlist branch
returns the first relevant candidate, which — search payloads carrying no
statistics, so every survivor scores 0 — is a first maximum as well. -/
theorem C3_bestOfSelection (fuzzScore : String → String → Nat)
    (lenOk : String → Bool) (searchItems : List YtItem)
    (videoInfo : List String → List YtItem) (title : String) :
    (∀ l : List YtItem, l ≠ [] → ∃ l1 v l2, l = l1 ++ v :: l2 ∧
      get_best_video l = some v ∧ (∀ u ∈ l1, ytScore u < ytScore v) ∧
      (∀ u ∈ l2, ytScore u ≤ ytScore v)) ∧
    (∀ v : YtItem, searchItems ≠ [] →
      relevantItems fuzzScore title searchItems ≠ [] →
      (videoInfo (vidIds (relevantItems fuzzScore title searchItems))).all
        (fun i => i.duration.isSome) = true →
      get_best_video (longItems lenOk
        (videoInfo (vidIds (relevantItems fuzzScore title searchItems)))) = some v →
      fetch_youtube_data fuzzScore lenOk searchItems videoInfo title "videos" =
        (.found v, [vidIds (relevantItems fuzzScore title searchItems)])) ∧
    (∀ p ps, searchItems ≠ [] →
      relevantItems fuzzScore title searchItems = p :: ps →
      (∀ u ∈ p :: ps, u.playlistId.isSome = true ∧ u.viewCount = none ∧
        u.likeCount = none) →
      fetch_youtube_data fuzzScore lenOk searchItems videoInfo title "playlists" =
        (.found p, []) ∧ ∀ u ∈ p :: ps, ytScore u ≤ ytScore p) := by
  refine ⟨?_, ?_, ?_⟩
  · intro l hl
    cases l with
    | nil => exact absurd rfl hl
    | cons a rest =>
      obtain ⟨l1, v, l2, hdec, hfold, hlt, hle⟩ := foldBest_firstMax rest a
      exact ⟨l1, v, l2, hdec, by simp [get_best_video, hfold], hlt, hle⟩
  · intro v hs hrel hall hbest
    have hs' : searchItems.isEmpty = false := by
      cases searchItems with
      | nil => exact absurd rfl hs
      | cons a l => rfl
    have hrel' : (relevantItems fuzzScore title searchItems).isEmpty = false := by
      cases hx : relevantItems fuzzScore title searchItems with
      | nil => exact absurd hx hrel
      | cons a l => rfl
    have hnone : (videoInfo (vidIds (relevantItems fuzzScore title
        searchItems))).any (fun i => i.duration.isNone) = false := by
      rw [List.any_eq_false]
      intro x hx
      have := List.all_eq_true.mp hall x hx
      simp only [Bool.not_eq_true]
      cases hdx : x.duration with
      | none => simp [hdx] at this
      | some d => rfl
    have hlong : (longItems lenOk (videoInfo (vidIds (relevantItems fuzzScore
        title searchItems)))).isEmpty = false := by
      cases hx : longItems lenOk (videoInfo (vidIds (relevantItems fuzzScore
          title searchItems))) with
      | nil => rw [hx] at hbest; exact absurd hbest (by simp [get_best_video])
      | cons a l => rfl
    simp [fetch_youtube_data, hs', hrel', hnone, hlong, hbest]
  · intro p ps hs hrel hprops
    have hs' : searchItems.isEmpty = false := by
      cases searchItems with
      | nil => exact absurd rfl hs
      | cons a l => rfl
    have hfilter : (p :: ps).filter (fun i => i.playlistId.isSome) = p :: ps :=
      List.filter_eq_self.mpr (fun u hu => (hprops u hu).1)
    have hscore : ∀ u ∈ p :: ps, ytScore u ≤ ytScore p := by
      intro u hu
      have hu' := hprops u hu
      have hp' := hprops p (List.mem_cons_self p ps)
      simp [ytScore, hu'.2.1, hu'.2.2, hp'.2.1, hp'.2.2]
    constructor
    · have hrel' : (relevantItems fuzzScore title searchItems).isEmpty = false := by
        rw [hrel]; rfl
      simp [fetch_youtube_data, hs', hrel', hrel, hfilter]
    · exact hscore

/-- C3 witness: two duration-surviving videos with scores 100 and 250 — the
pipeline returns the 250 one although it comes second. -/
theorem C3_witness :
    fetch_youtube_data fuzzSubstr (fun _ => true) [searchItemW]
      (fun _ => [vidW1, vidW2]) "intro" "videos" =
      (.found vidW2, [vidIds (relevantItems fuzzSubstr "intro" [searchItemW])]) :=
  (C3_bestOfSelection fuzzSubstr (fun _ => true) [searchItemW]
      (fun _ => [vidW1, vidW2]) "intro").2.1 vidW2
    (by decide) (by decide) (by decide) (by decide)

theorem getLast_append_concat (a b : List Char) (x : Char) :
    (a ++ (b ++ [x])).getLast? = some x := by
  rw [← List.append_assoc]
  exact List.getLast?_concat (a ++ b)

theorem md_data_last (g : String) : (g ++ ".md").data.getLast? = some 'd' := by
  have h : (g ++ ".md").data = g.data ++ (['.', 'm'] ++ ['d']) := rfl
  rw [h]
  exact getLast_append_concat g.data ['.', 'm'] 'd'

theorem logName_data_last (dateStr : String) :
    (logName false dateStr).data.getLast? = some 'g' := by
  have h : (logName false dateStr).data =
      ("update_log_".data ++ dateStr.data) ++ (['.', 'l', 'o'] ++ ['g']) := by
    show ("update_log".data ++ "_".data) ++ dateStr.data ++ ".log".data =
      ("update_log_".data ++ dateStr.data) ++ (['.', 'l', 'o'] ++ ['g'])
    simp
  rw [h]
  exact getLast_append_concat _ ['.', 'l', 'o'] 'g'

theorem logName_ne_md (dateStr g : String) : logName false dateStr ≠ g ++ ".md" := by
  intro h
  have h1 := logName_data_last dateStr
  rw [h, md_data_last g] at h1
  exact absurd (Option.some.inj h1) (by decide)

theorem dump_ne_md (g : String) : "dump.json" ≠ g ++ ".md" := by
  intro h
  have h1 : ("dump.json" : String).data.getLast? = some 'n' := by decide
  rw [h, md_data_last g] at h1
  exact absurd (Option.some.inj h1) (by decide)

/-- Every operation of the run trace is a markdown read, the log append, or
the `dump.json` write. -/
theorem script_fsOps_cases (dateStr : String) (hasOutdated : String → Bool)
    (files : List String) (op : FsOp)
    (hop : op ∈ script_fsOps dateStr hasOutdated files) :
    (∃ f, f ∈ files ∧ op = ⟨f, .read⟩) ∨
      op = ⟨logName false dateStr, .append⟩ ∨ op = ⟨"dump.json", .write⟩ := by
  rcases List.mem_append.mp hop with hin | hdump
  · simp only [outdated_md_info_fsOps, List.mem_flatMap] at hin
    obtain ⟨f, hf, hmem⟩ := hin
    rcases List.mem_cons.mp hmem with rfl | htail
    · exact Or.inl ⟨f, hf, rfl⟩
    · cases hout : hasOutdated f with
      | true =>
        rw [hout] at htail
        simp at htail
        exact Or.inr (Or.inl htail)
      | false =>
        rw [hout] at htail
        simp at htail
  · simp at hdump
    exact Or.inr (Or.inr hdump)

/-- C9: the run never opens a scanned markdown document except for reading —
every operation whose path has the `.md` shape is a read — and every
non-read operation targets a run artifact: the log file or `dump.json`. -/
theorem C9_sourcesReadOnly (dateStr : String) (hasOutdated : String → Bool)
    (files : List String) (op op2 : FsOp) (g : String)
    (hop : op ∈ script_fsOps dateStr hasOutdated files)
    (hpath : op.path = g ++ ".md")
    (hop2 : op2 ∈ script_fsOps dateStr hasOutdated files) :
    op.mode = FsMode.read ∧
      (op2.mode = FsMode.read ∨ op2.path = logName false dateStr ∨
        op2.path = "dump.json") := by
  constructor
  · rcases script_fsOps_cases dateStr hasOutdated files op hop with ⟨f, hf, rfl⟩ | rfl | rfl
    · rfl
    · exact absurd hpath (logName_ne_md dateStr g)
    · exact absurd hpath (dump_ne_md g)
  · rcases script_fsOps_cases dateStr hasOutdated files op2 hop2 with ⟨f, hf, rfl⟩ | rfl | rfl
    · exact Or.inl rfl
    · exact Or.inr (Or.inl rfl)
    · exact Or.inr (Or.inr rfl)

/-- C9 witness: a concrete run over one markdown file that produced updates:
the markdown operation is the read, the non-read operation is the log
append. -/
theorem C9_witness :
    (⟨"notes.md", FsMode.read⟩ : FsOp).mode = FsMode.read ∧
      ((⟨logName false "2025-01-01", FsMode.append⟩ : FsOp).mode = FsMode.read ∨
        (⟨logName false "2025-01-01", FsMode.append⟩ : FsOp).path =
          logName false "2025-01-01" ∨
        (⟨logName false "2025-01-01", FsMode.append⟩ : FsOp).path = "dump.json") :=
  C9_sourcesReadOnly "2025-01-01" (fun _ => true) ["notes.md"]
    ⟨"notes.md", FsMode.read⟩ ⟨logName false "2025-01-01", FsMode.append⟩
    "notes" (by decide) (by decide) (by decide)

/-- `parse_qs` on a well-formed single-pair query `key=id` finds `id` as the
first value for `key`. -/
theorem qsFirst_keyval (key id : List Char) (hne : id ≠ [])
    (hamp : ∀ c ∈ id, (c == '&') = false) (heqc : ∀ c ∈ id, (c == '=') = false)
    (hkeyA : ∀ c ∈ key, (c == '&') = false)
    (hkeyE : ∀ c ∈ key, (c == '=') = false) :
    qsFirst (key ++ '=' :: id) key = some id := by
  have hsplit : splitOnChar '&' (key ++ '=' :: id) = [key ++ '=' :: id] := by
    apply splitOnChar_no_sep
    intro c hc
    rcases List.mem_append.mp hc with hk | hi
    · exact hkeyA c hk
    · rcases List.mem_cons.mp hi with rfl | hi'
      · rfl
      · exact hamp c hi'
  have hcont : (key ++ '=' :: id).contains '=' = true :=
    List.elem_eq_true_of_mem
      (List.mem_append_right key (List.mem_cons_self '=' id))
  have htake : (key ++ '=' :: id).takeWhile (fun c => !(c == '=')) = key :=
    takeWhile_append_stop _ key '=' id
      (fun c hcmem => by rw [hkeyE c hcmem]; rfl) rfl
  have hdrop : (key ++ '=' :: id).dropWhile (fun c => !(c == '=')) = '=' :: id :=
    dropWhile_append_stop _ key '=' id
      (fun c hcmem => by rw [hkeyE c hcmem]; rfl) rfl
  have hidne : id.isEmpty = false := by
    cases id with
    | nil => exact absurd rfl hne
    | cons a l => rfl
  have hpair : parseQsPair (key ++ '=' :: id) = some (key, id) := by
    simp only [parseQsPair, hcont, if_true, hdrop, List.tail_cons, hidne,
      Bool.false_eq_true, if_false, htake]
  simp [qsFirst, parse_qs, hsplit, hpair]

/-- `check_and_update_yt` on a non-short-link URL returns whatever the first
matching query parameter holds. -/
theorem extract_via_query (url type : String) (id : List Char)
    (hnet : isSubL "youtu.be".data (urlNetloc url.data) = false)
    (hq : qsFirst (urlQuery url.data)
      (if type == "videos" then "v".data else "list".data) = some id) :
    extract_yt_id url type = .ok (String.mk id) := by
  simp only [extract_yt_id, hnet, Bool.false_eq_true, if_false, hq]

/-- `check_and_update_yt` on a short-link URL returns the stripped path. -/
theorem extract_via_path (url type : String)
    (hnet : isSubL "youtu.be".data (urlNetloc url.data) = true) :
    extract_yt_id url type = .ok (String.mk (stripSlashes (urlPath url.data))) := by
  simp only [extract_yt_id, hnet, if_true]

/-- Identifier extraction succeeds on a canonical watch URL: the `v` query
parameter is returned. -/
theorem extract_watch_ok (id : List Char) (hne : id ≠ [])
    (hamp : ∀ c ∈ id, (c == '&') = false) (heqc : ∀ c ∈ id, (c == '=') = false)
    (hhash : ∀ c ∈ id, (c == '#') = false) :
    extract_yt_id (String.mk ("https://www.youtube.com/watch?v=".data ++ id))
      "videos" = .ok (String.mk id) := by
  apply extract_via_query
    (String.mk ("https://www.youtube.com/watch?v=".data ++ id)) "videos" id rfl
  have h1 : urlQuery (String.mk
      ("https://www.youtube.com/watch?v=".data ++ id)).data =
      'v' :: '=' :: id.takeWhile (fun c => !(c == '#')) := rfl
  rw [h1, takeWhile_all _ id (fun c hc => by rw [hhash c hc]; rfl)]
  show qsFirst ("v".data ++ '=' :: id) "v".data = some id
  exact qsFirst_keyval "v".data id hne hamp heqc
    (by intro c hc; simp at hc; subst hc; rfl)
    (by intro c hc; simp at hc; subst hc; rfl)

/-- Identifier extraction succeeds on a canonical playlist URL: the `list`
query parameter is returned. -/
theorem extract_playlist_ok (id : List Char) (hne : id ≠ [])
    (hamp : ∀ c ∈ id, (c == '&') = false) (heqc : ∀ c ∈ id, (c == '=') = false)
    (hhash : ∀ c ∈ id, (c == '#') = false) :
    extract_yt_id
      (String.mk ("https://www.youtube.com/playlist?list=".data ++ id))
      "playlists" = .ok (String.mk id) := by
  apply extract_via_query
    (String.mk ("https://www.youtube.com/playlist?list=".data ++ id))
    "playlists" id rfl
  have h1 : urlQuery (String.mk
      ("https://www.youtube.com/playlist?list=".data ++ id)).data =
      'l' :: 'i' :: 's' :: 't' :: '=' :: id.takeWhile (fun c => !(c == '#')) := rfl
  rw [h1, takeWhile_all _ id (fun c hc => by rw [hhash c hc]; rfl)]
  show qsFirst ("list".data ++ '=' :: id) "list".data = some id
  exact qsFirst_keyval "list".data id hne hamp heqc
    (by intro c hc; simp at hc; rcases hc with rfl | rfl | rfl | rfl <;> rfl)
    (by intro c hc; simp at hc; rcases hc with rfl | rfl | rfl | rfl <;> rfl)

/-- Identifier extraction succeeds on a short-link URL: the stripped path is
returned, for any link type. -/
theorem extract_shortlink_ok (id : List Char) (type : String)
    (hslash : ∀ c ∈ id, (c == '/') = false)
    (hquest : ∀ c ∈ id, (c == '?') = false)
    (hhash : ∀ c ∈ id, (c == '#') = false) :
    extract_yt_id (String.mk ("https://youtu.be/".data ++ id)) type =
      .ok (String.mk id) := by
  rw [extract_via_path (String.mk ("https://youtu.be/".data ++ id)) type rfl]
  have hpath : urlPath (String.mk ("https://youtu.be/".data ++ id)).data =
      '/' :: id.takeWhile (fun c => !(c == '?' || c == '#')) := rfl
  rw [hpath, takeWhile_all _ id
    (fun c hc => by rw [hquest c hc, hhash c hc]; rfl)]
  have hstrip : stripSlashes ('/' :: id) = id := by
    have h1 : ('/' :: id).dropWhile (fun c => c == '/') =
        id.dropWhile (fun c => c == '/') := by
      simp [List.dropWhile_cons]
    have h2 : id.dropWhile (fun c => c == '/') = id :=
      dropWhile_none _ id hslash
    have h3 : id.reverse.dropWhile (fun c => c == '/') = id.reverse :=
      dropWhile_none _ id.reverse
        (fun c hc => hslash c (List.mem_reverse.mp hc))
    simp [stripSlashes, h1, h2, h3]
  rw [hstrip]

/-- C8 counterexample: the line `[Intro](https://www.youtube.com/watch?v=&t=5)`
matches the extractor pattern and is classified as a video record, but its
blank `v` value is dropped by `parse_qs`, so `query_params.get("v")` is
`None` and `None[0]` raises a `TypeError` — the record is not silently
dropped. -/
theorem C8_cex :
    lineRecord "[Intro](https://www.youtube.com/watch?v=&t=5)" =
      some { name := "Intro", type := "videos",
             url := "https://www.youtube.com/watch?v=&t=5" } ∧
    extract_yt_id "https://www.youtube.com/watch?v=&t=5" "videos" =
      .error .typeErr := by
  decide

/-- C8 (amended): identifier extraction takes the `v` query parameter for a
video URL, the `list` query parameter for a playlist URL and the stripped
URL path for the short-link host; but when the expected query parameter
yields no identifier (for instance a blank `v=` value, which `parse_qs`
drops), extraction raises a `TypeError` (`None[0]`) instead of silently
dropping the record. -/
theorem C8_idExtraction (id : List Char) (hne : id ≠ [])
    (hok : ∀ c ∈ id, (c == '&') = false ∧ (c == '=') = false ∧
      (c == '/') = false ∧ (c == '?') = false ∧ (c == '#') = false) :
    extract_yt_id (String.mk ("https://www.youtube.com/watch?v=".data ++ id))
      "videos" = .ok (String.mk id) ∧
    extract_yt_id
      (String.mk ("https://www.youtube.com/playlist?list=".data ++ id))
      "playlists" = .ok (String.mk id) ∧
    extract_yt_id (String.mk ("https://youtu.be/".data ++ id)) "videos" =
      .ok (String.mk id) ∧
    extract_yt_id "https://www.youtube.com/watch?v=&t=5" "videos" =
      .error .typeErr := by
  refine ⟨?_, ?_, ?_, by decide⟩
  · exact extract_watch_ok id hne (fun c hc => (hok c hc).1)
      (fun c hc => (hok c hc).2.1) (fun c hc => (hok c hc).2.2.2.2)
  · exact extract_playlist_ok id hne (fun c hc => (hok c hc).1)
      (fun c hc => (hok c hc).2.1) (fun c hc => (hok c hc).2.2.2.2)
  · exact extract_shortlink_ok id "videos" (fun c hc => (hok c hc).2.2.1)
      (fun c hc => (hok c hc).2.2.2.1) (fun c hc => (hok c hc).2.2.2.2)

/-- C8 witness: the identifier `abc123` is extracted from all three URL
shapes, and the blank-`v` URL raises. -/
theorem C8_witness :
    extract_yt_id
      (String.mk ("https://www.youtube.com/watch?v=".data ++ "abc123".data))
      "videos" = .ok (String.mk "abc123".data) ∧
    extract_yt_id
      (String.mk ("https://www.youtube.com/playlist?list=".data ++ "abc123".data))
      "playlists" = .ok (String.mk "abc123".data) ∧
    extract_yt_id (String.mk ("https://youtu.be/".data ++ "abc123".data))
      "videos" = .ok (String.mk "abc123".data) ∧
    extract_yt_id "https://www.youtube.com/watch?v=&t=5" "videos" =
      .error .typeErr :=
  C8_idExtraction "abc123".data (by decide) (by decide)

/-- Soundness of the duration regex model: a successful prefix match yields a
genuine `PT<m>M<s>S` decomposition of the input. -/
theorem matchPTMS_sound (l : List Char) (m s : Nat)
    (h : matchPTMS l = some (m, s)) : IsPTMSAt l m s := by
  cases l with
  | nil => exact absurd h (by simp [matchPTMS])
  | cons p l1 =>
    cases l1 with
    | nil => exact absurd h (by simp [matchPTMS])
    | cons t rest =>
      simp only [matchPTMS] at h
      by_cases hpt : (p == 'P' && t == 'T') = true
      case neg => rw [if_neg hpt] at h; exact absurd h (by simp)
      rw [if_pos hpt] at h
      obtain ⟨hp, ht⟩ := Bool.and_eq_true_iff.mp hpt
      have hp' : p = 'P' := by rwa [beq_iff_eq] at hp
      have ht' : t = 'T' := by rwa [beq_iff_eq] at ht
      subst hp' ht'
      cases htake1 : rest.takeWhile Char.isDigit with
      | nil =>
        cases hdrop1 : rest.dropWhile Char.isDigit with
        | nil => rw [htake1, hdrop1] at h; simp at h
        | cons mm rest2 => rw [htake1, hdrop1] at h; simp at h
      | cons d ds =>
      cases hdrop1 : rest.dropWhile Char.isDigit with
      | nil => rw [htake1, hdrop1] at h; simp at h
      | cons mm rest2 =>
      rw [htake1, hdrop1] at h
      simp only [] at h
      by_cases hM : (mm == 'M') = true
      case neg => rw [if_neg hM] at h; exact absurd h (by simp)
      rw [if_pos hM] at h
      have hM' : mm = 'M' := by rwa [beq_iff_eq] at hM
      subst hM'
      cases htake2 : rest2.takeWhile Char.isDigit with
      | nil =>
        cases hdrop2 : rest2.dropWhile Char.isDigit with
        | nil => rw [htake2, hdrop2] at h; simp at h
        | cons ss rest3 => rw [htake2, hdrop2] at h; simp at h
      | cons e es =>
      cases hdrop2 : rest2.dropWhile Char.isDigit with
      | nil => rw [htake2, hdrop2] at h; simp at h
      | cons ss rest3 =>
      rw [htake2, hdrop2] at h
      simp only [] at h
      by_cases hS : (ss == 'S') = true
      case neg => rw [if_neg hS] at h; exact absurd h (by simp)
      rw [if_pos hS] at h
      have hS' : ss = 'S' := by rwa [beq_iff_eq] at hS
      subst hS'
      have hmsv := Prod.mk.inj (Option.some.inj h)
      refine ⟨d :: ds, e :: es, rest3, by simp, by simp, ?_, ?_, ?_,
        hmsv.1.symm, hmsv.2.symm⟩
      · intro c hc
        exact List.mem_takeWhile_imp (htake1 ▸ hc)
      · intro c hc
        exact List.mem_takeWhile_imp (htake2 ▸ hc)
      · have hr1 : rest = (d :: ds) ++ 'M' :: rest2 := by
          rw [← htake1, ← hdrop1]
          exact (List.takeWhile_append_dropWhile Char.isDigit rest).symm
        have hr2 : rest2 = (e :: es) ++ 'S' :: rest3 := by
          rw [← htake2, ← hdrop2]
          exact (List.takeWhile_append_dropWhile Char.isDigit rest2).symm
        rw [hr1, hr2]

/-- Completeness of the duration regex model: every `PT<m>M<s>S`-shaped
input matches and the greedy digit runs yield the decomposed values. -/
theorem matchPTMS_complete (d1 d2 rest : List Char) (h1 : d1 ≠ [])
    (h2 : d2 ≠ []) (hd1 : ∀ c ∈ d1, c.isDigit = true)
    (hd2 : ∀ c ∈ d2, c.isDigit = true) :
    matchPTMS ('P' :: 'T' :: (d1 ++ 'M' :: (d2 ++ 'S' :: rest))) =
      some (digitsVal d1, digitsVal d2) := by
  obtain ⟨d, ds, rfl⟩ : ∃ d ds, d1 = d :: ds := by
    cases d1 with
    | nil => exact absurd rfl h1
    | cons d ds => exact ⟨d, ds, rfl⟩
  obtain ⟨e, es, rfl⟩ : ∃ e es, d2 = e :: es := by
    cases d2 with
    | nil => exact absurd rfl h2
    | cons e es => exact ⟨e, es, rfl⟩
  have htake1 := takeWhile_append_stop Char.isDigit (d :: ds) 'M'
    ((e :: es) ++ 'S' :: rest) hd1 (by decide)
  have hdrop1 := dropWhile_append_stop Char.isDigit (d :: ds) 'M'
    ((e :: es) ++ 'S' :: rest) hd1 (by decide)
  have htake2 := takeWhile_append_stop Char.isDigit (e :: es) 'S' rest hd2
    (by decide)
  have hdrop2 := dropWhile_append_stop Char.isDigit (e :: es) 'S' rest hd2
    (by decide)
  simp only [matchPTMS, htake1, hdrop1, htake2, hdrop2]
  rfl

/-- C10 counterexample: `re.match` anchors only at the start, so the input
`PT1M2SX` — not of the exact shape `PT<m>M<s>S` — is still accepted and
formatted as `2 minute(s)` instead of yielding the invalid-format message. -/
theorem C10_cex :
    convert_duration "PT1M2SX" = "2 minute(s)" ∧
    "2 minute(s)" ≠ "Invalid duration format" := by
  decide

/-- C10 (amended): duration formatting accepts exactly the strings with a
`PT<m>M<s>S` prefix (trailing characters, as in `PT1M2SX`, are ignored):
`s > 0` reports `m + 1` minutes, `s = 0` reports `m`, and from 60 minutes
upward the value is rendered as hours with two decimals; every input
without such a prefix — including `PT1H2M3S` and `PT5M` — yields
`"Invalid duration format"`. -/
theorem C10_durationFormat :
    (∀ l m sec, IsPTMSAt l m sec →
      convert_duration (String.mk l) =
        (if 60 ≤ (if 0 < sec then m + 1 else m) then
          formatHours (if 0 < sec then m + 1 else m)
         else toString (if 0 < sec then m + 1 else m) ++ " minute(s)")) ∧
    (∀ l, ¬ IsPTMS l →
      convert_duration (String.mk l) = "Invalid duration format") ∧
    convert_duration "PT1H2M3S" = "Invalid duration format" ∧
    convert_duration "PT5M" = "Invalid duration format" := by
  refine ⟨?_, ?_, by decide, by decide⟩
  · rintro l m sec ⟨d1, d2, rest, h1, h2, hd1, hd2, rfl, rfl, rfl⟩
    simp only [convert_duration]
    rw [matchPTMS_complete d1 d2 rest h1 h2 hd1 hd2]
  · intro l hn
    cases hm : matchPTMS l with
    | none =>
      simp only [convert_duration, hm]
    | some p =>
      exact absurd ⟨p.1, p.2, matchPTMS_sound l p.1 p.2 (by rw [hm])⟩ hn

/-- C10 witness: `PT2M30S` — seconds present, so 2 minutes round up to 3. -/
theorem C10_witness : convert_duration "PT2M30S" = "3 minute(s)" := by
  have h := C10_durationFormat.1 "PT2M30S".data 2 30
    ⟨['2'], ['3', '0'], [], by decide, by decide, by decide, by decide,
      rfl, by decide, by decide⟩
  exact h
